import Mathlib

set_option maxRecDepth 100000

/-!
Verification of the call-audit core (`src/app.py`) against its specification.

The development shallowly embeds the pure logic of the source:

* `Json` models Python values produced by `json.loads`; integer literals
  decode to `Int` and float literals (fraction, exponent, `NaN`, the
  infinities) to `JsonFloat`, which keeps the exact decimal components
  rather than a binary64 value.
* `parseJson` models `json.loads` as a recursive-descent parser over the
  character list of the input, returning `none` where `json.loads` raises
  `JSONDecodeError`: it enforces the same literal grammar (no leading-zero
  numerals, fractions and exponents with at least one digit, `NaN` and
  `Infinity` admitted by the default `allow_nan=True`, no raw control
  characters inside string literals).  `decode` models the `try/except`
  block of `CallAuditApp.analyze_transcript`.
* `default_criteria`, `create_audit_prompt` and `analyze_transcript` are
  transcribed from the class `CallAuditApp`; the outbound OpenAI call is an
  explicit function argument `invoke`, and exceptions it raises are the
  `Except.error` channel.
* `resolveRubric` and `analyze` model the rubric handling and the
  post-processing of the `/analyze` route handler (transcript extraction by
  the web layer is out of scope; the handler is modelled from the point where
  `transcript` and the `custom_criteria` form field are in hand).
-/

/-- A Python `float` as `json.loads` produces one: a finite value kept as
its exact decimal components (sign, mantissa digits, power of ten), or the
infinities and NaN admitted by the default `allow_nan=True`.  Binary64
rounding is deliberately not modelled; only the predicate needed by the
claims (truthiness, i.e. comparison of the rounded value with `0.0`) is
computed from the components. -/
inductive JsonFloat where
  | finite : Bool → Nat → Int → JsonFloat
  | inf : Bool → JsonFloat
  | nan : JsonFloat

/-- Python values as decoded by `json.loads`: `None`, `bool`, `int`,
`float` (see `JsonFloat`), `str`, `list` and `dict` (insertion-ordered
association list). -/
inductive Json where
  | null : Json
  | bool : Bool → Json
  | num : Int → Json
  | fnum : JsonFloat → Json
  | str : String → Json
  | arr : List Json → Json
  | obj : List (String × Json) → Json

/-- The `\x7b` character, written out to keep brace characters out of
character literals. -/
def lbrace : Char := Char.ofNat 123

/-- The `\x7d` character. -/
def rbrace : Char := Char.ofNat 125

/-- JSON whitespace, exactly the characters skipped by `json.loads`. -/
def isWsChar : Char → Bool
  | ' ' => true
  | '\t' => true
  | '\n' => true
  | '\r' => true
  | _ => false

/-- Drop leading JSON whitespace. -/
def skipWs (s : List Char) : List Char := s.dropWhile isWsChar

/-- Lower-case hexadecimal digit for a value below 16. -/
def hexChar (n : Nat) : Char :=
  if n < 10 then Char.ofNat (48 + n) else Char.ofNat (87 + n)

/-- Value of a hexadecimal digit character, if it is one. -/
def hexVal (c : Char) : Option Nat :=
  if 48 ≤ c.toNat ∧ c.toNat ≤ 57 then some (c.toNat - 48)
  else if 97 ≤ c.toNat ∧ c.toNat ≤ 102 then some (c.toNat - 87)
  else if 65 ≤ c.toNat ∧ c.toNat ≤ 70 then some (c.toNat - 55)
  else none

/-- JSON string escaping of one character: `"` and `\` get a backslash,
control characters become a `\u00XX` escape, everything else is verbatim. -/
def escapeChar (c : Char) : List Char :=
  if c = '"' then ['\\', '"']
  else if c = '\\' then ['\\', '\\']
  else if c.toNat < 32 then
    '\\' :: 'u' :: '0' :: '0' :: hexChar (c.toNat / 16) :: [hexChar (c.toNat % 16)]
  else [c]

/-- JSON string escaping of a character sequence. -/
def escapeChars : List Char → List Char
  | [] => []
  | c :: cs => escapeChar c ++ escapeChars cs

/-- A JSON string literal (with surrounding quotes) for `s`. -/
def dumpStr (s : String) : List Char :=
  '"' :: (escapeChars s.data ++ ['"'])

/-- Decimal digits of `n`, most significant first; `fuel` bounds the
recursion and any `fuel > n` is enough. -/
def natToCharsAux : Nat → Nat → List Char
  | 0, _ => []
  | f + 1, n =>
    if n < 10 then [Char.ofNat (48 + n)]
    else natToCharsAux f (n / 10) ++ [Char.ofNat (48 + n % 10)]

/-- Decimal representation of a natural number. -/
def natToChars (n : Nat) : List Char := natToCharsAux (n + 1) n

/-- Decimal representation of an integer. -/
def intToChars : Int → List Char
  | Int.ofNat n => natToChars n
  | Int.negSucc n => '-' :: natToChars (n + 1)

/-- Greedily consume decimal digits, folding them onto `acc`. -/
def parseDigits (acc : Nat) : List Char → Nat × List Char
  | [] => (acc, [])
  | c :: r =>
    if c.isDigit then parseDigits (acc * 10 + (c.toNat - 48)) r
    else (acc, c :: r)

/-- Greedily consume decimal digits, also counting how many were taken. -/
def parseDigitsCnt (acc cnt : Nat) : List Char → Nat × Nat × List Char
  | [] => (acc, cnt, [])
  | c :: r =>
    if c.isDigit then parseDigitsCnt (acc * 10 + (c.toNat - 48)) (cnt + 1) r
    else (acc, cnt, c :: r)

/-- Build the parsed number: a Python `int` when the literal had neither a
fraction nor an exponent, a Python `float` otherwise. -/
def finishNumber (neg isF : Bool) (intVal mant : Nat) (exp10 : Int)
    (rest : List Char) : Option (Json × List Char) :=
  if isF then some (Json.fnum (JsonFloat.finite neg mant exp10), rest)
  else some (Json.num (if neg then -(intVal : Int) else (intVal : Int)), rest)

/-- Optional exponent part of a JSON number literal: `e`/`E`, an optional
sign, then at least one digit (leading zeros are allowed here). -/
def parseExpPart (neg isF : Bool) (intVal mant : Nat) (exp10 : Int) :
    List Char → Option (Json × List Char)
  | [] => finishNumber neg isF intVal mant exp10 []
  | e :: r =>
    if e == 'e' || e == 'E' then
      match r with
      | [] => none
      | d :: r2 =>
        if d = '+' then
          match r2 with
          | d2 :: _ =>
            if d2.isDigit then
              let p := parseDigits 0 r2
              finishNumber neg true intVal mant (exp10 + (p.1 : Int)) p.2
            else none
          | [] => none
        else if d = '-' then
          match r2 with
          | d2 :: _ =>
            if d2.isDigit then
              let p := parseDigits 0 r2
              finishNumber neg true intVal mant (exp10 - (p.1 : Int)) p.2
            else none
          | [] => none
        else if d.isDigit then
          let p := parseDigits 0 (d :: r2)
          finishNumber neg true intVal mant (exp10 + (p.1 : Int)) p.2
        else none
    else finishNumber neg isF intVal mant exp10 (e :: r)

/-- Optional fraction part of a JSON number literal: a dot followed by at
least one digit; the fraction digits extend the mantissa and lower the
power of ten. -/
def parseFracPart (neg : Bool) (ipart : Nat) :
    List Char → Option (Json × List Char)
  | [] => parseExpPart neg false ipart ipart 0 []
  | c :: r =>
    if c = '.' then
      match r with
      | d :: _ =>
        if d.isDigit then
          let q := parseDigitsCnt 0 0 r
          parseExpPart neg true ipart (ipart * 10 ^ q.2.1 + q.1) (-(q.2.1 : Int)) q.2.2
        else none
      | [] => none
    else parseExpPart neg false ipart ipart 0 (c :: r)

/-- A JSON number literal after the optional minus sign, with the grammar
`json.loads` enforces: the integer part is `0` or starts with a non-zero
digit (leading zeros are rejected), then optional fraction and exponent. -/
def parseNumber (neg : Bool) : List Char → Option (Json × List Char)
  | [] => none
  | c :: r =>
    if c = '0' then
      match r with
      | d :: _ => if d.isDigit then none else parseFracPart neg 0 r
      | [] => parseFracPart neg 0 []
    else if c.isDigit then
      let p := parseDigits 0 (c :: r)
      parseFracPart neg p.1 p.2
    else none

/-- Parse the body of a JSON string literal (the opening quote already
consumed), returning the unescaped characters and the input after the
closing quote.  As in `json.loads` (strict mode), a raw control character
below `0x20` is invalid and must appear as an escape.  A `\uXXXX` escape
naming a surrogate half, which Python admits into its `str`, goes through
`Char.ofNat` (yielding the null scalar) since Lean scalars exclude
surrogates; the accept set is unaffected. -/
def parseStringBody : List Char → Option (List Char × List Char)
  | [] => none
  | c :: r =>
    if c = '"' then some ([], r)
    else if c = '\\' then
      match r with
      | [] => none
      | e :: r2 =>
        if e = '"' then (fun p => ('"' :: p.1, p.2)) <$> parseStringBody r2
        else if e = '\\' then (fun p => ('\\' :: p.1, p.2)) <$> parseStringBody r2
        else if e = '/' then (fun p => ('/' :: p.1, p.2)) <$> parseStringBody r2
        else if e = 'b' then (fun p => ('\x08' :: p.1, p.2)) <$> parseStringBody r2
        else if e = 'f' then (fun p => ('\x0c' :: p.1, p.2)) <$> parseStringBody r2
        else if e = 'n' then (fun p => ('\n' :: p.1, p.2)) <$> parseStringBody r2
        else if e = 'r' then (fun p => ('\r' :: p.1, p.2)) <$> parseStringBody r2
        else if e = 't' then (fun p => ('\t' :: p.1, p.2)) <$> parseStringBody r2
        else if e = 'u' then
          match r2 with
          | h1 :: h2 :: h3 :: h4 :: r3 =>
            match hexVal h1, hexVal h2, hexVal h3, hexVal h4 with
            | some v1, some v2, some v3, some v4 =>
              (fun p => (Char.ofNat (((v1 * 16 + v2) * 16 + v3) * 16 + v4) :: p.1, p.2)) <$>
                parseStringBody r3
            | _, _, _, _ => none
          | _ => none
        else none
    else if c.toNat < 32 then none
    else (fun p => (c :: p.1, p.2)) <$> parseStringBody r

mutual

/-- Parse one JSON value.  `fuel` bounds the nesting recursion; the input
length plus one is always sufficient. -/
def parseValue : Nat → List Char → Option (Json × List Char)
  | 0, _ => none
  | fuel + 1, s =>
    match s with
    | [] => none
    | c :: r =>
      if c = '"' then
        match parseStringBody r with
        | some (cs, rest) => some (Json.str (String.mk cs), rest)
        | none => none
      else if c = '-' then
        match r with
        | [] => none
        | d :: r2 =>
          if d = 'I' then
            match r2 with
            | 'n' :: 'f' :: 'i' :: 'n' :: 'i' :: 't' :: 'y' :: rest =>
              some (Json.fnum (JsonFloat.inf true), rest)
            | _ => none
          else if d.isDigit then parseNumber true (d :: r2)
          else none
      else if c.isDigit then parseNumber false (c :: r)
      else if c = '[' then
        match skipWs r with
        | c1 :: r1 =>
          if c1 = ']' then some (Json.arr [], r1)
          else
            match parseElems fuel (c1 :: r1) with
            | some (vs, rest) => some (Json.arr vs, rest)
            | none => none
        | [] => none
      else if c = lbrace then
        match skipWs r with
        | c1 :: r1 =>
          if c1 = rbrace then some (Json.obj [], r1)
          else
            match parseMembers fuel (c1 :: r1) with
            | some (ms, rest) => some (Json.obj ms, rest)
            | none => none
        | [] => none
      else if c = 't' then
        match r with
        | 'r' :: 'u' :: 'e' :: rest => some (Json.bool true, rest)
        | _ => none
      else if c = 'f' then
        match r with
        | 'a' :: 'l' :: 's' :: 'e' :: rest => some (Json.bool false, rest)
        | _ => none
      else if c = 'n' then
        match r with
        | 'u' :: 'l' :: 'l' :: rest => some (Json.null, rest)
        | _ => none
      else if c = 'N' then
        match r with
        | 'a' :: 'N' :: rest => some (Json.fnum JsonFloat.nan, rest)
        | _ => none
      else if c = 'I' then
        match r with
        | 'n' :: 'f' :: 'i' :: 'n' :: 'i' :: 't' :: 'y' :: rest =>
          some (Json.fnum (JsonFloat.inf false), rest)
        | _ => none
      else none

/-- Parse the elements of a non-empty JSON array (the opening bracket and
any following whitespace already consumed). -/
def parseElems : Nat → List Char → Option (List Json × List Char)
  | 0, _ => none
  | fuel + 1, s =>
    match parseValue fuel s with
    | none => none
    | some (v, r) =>
      match skipWs r with
      | c :: r1 =>
        if c = ',' then
          match parseElems fuel (skipWs r1) with
          | some (vs, rest) => some (v :: vs, rest)
          | none => none
        else if c = ']' then some ([v], r1)
        else none
      | [] => none

/-- Parse the members of a non-empty JSON object (the opening brace and any
following whitespace already consumed). -/
def parseMembers : Nat → List Char → Option (List (String × Json) × List Char)
  | 0, _ => none
  | fuel + 1, s =>
    match s with
    | [] => none
    | c :: r =>
      if c = '"' then
        match parseStringBody r with
        | some (kcs, r1) =>
          match skipWs r1 with
          | c1 :: r2 =>
            if c1 = ':' then
              match parseValue fuel (skipWs r2) with
              | some (v, r3) =>
                match skipWs r3 with
                | c2 :: r4 =>
                  if c2 = ',' then
                    match parseMembers fuel (skipWs r4) with
                    | some (ms, rest) => some ((String.mk kcs, v) :: ms, rest)
                    | none => none
                  else if c2 = rbrace then some ([(String.mk kcs, v)], r4)
                  else none
                | [] => none
              | none => none
            else none
          | [] => none
        | none => none
      else none

end

/-- Model of `json.loads`: parse a full JSON document, requiring the whole
input to be consumed up to trailing whitespace; `none` corresponds to a
raised `json.JSONDecodeError`. -/
def parseJson (s : String) : Option Json :=
  match parseValue (s.data.length + 1) (skipWs s.data) with
  | some (v, rest) => if skipWs rest = [] then some v else none
  | none => none

/-- The fixed error marker text of the decode failure dictionary. -/
def decodeFailMsg : String := "Failed to parse API response"

/-- The `try/except json.JSONDecodeError` block of
`CallAuditApp.analyze_transcript`: on parse success the decoded value is
returned as-is, on failure a dictionary with an `error` marker and the raw
response text. -/
def decode (raw : String) : Json :=
  match parseJson raw with
  | some v => v
  | none => Json.obj [("error", Json.str decodeFailMsg), ("raw_response", Json.str raw)]

/-- The entries of `CallAuditApp.default_criteria`, in source order. -/
def defaultCriteriaPairs : List (String × Json) :=
  [("greeting", Json.str "Did the agent use a proper greeting and introduce themselves?"),
   ("listening", Json.str "Did the agent actively listen to the customer's concerns?"),
   ("problem_solving", Json.str "Did the agent demonstrate effective problem-solving skills?"),
   ("knowledge", Json.str "Did the agent demonstrate sufficient product/service knowledge?"),
   ("empathy", Json.str "Did the agent show empathy and understanding?"),
   ("clarity", Json.str "Was the agent's communication clear and easy to understand?"),
   ("resolution", Json.str "Did the agent properly resolve the customer's issue?"),
   ("closing", Json.str "Did the agent provide a proper closing to the call?"),
   ("adherence_to_protocol", Json.str "Did the agent follow company protocols and procedures?"),
   ("professionalism", Json.str "Did the agent maintain professionalism throughout the call?")]

/-- `CallAuditApp.default_criteria`: the built-in ten-criterion rubric. -/
def default_criteria : Json := Json.obj defaultCriteriaPairs

/-- `n` spaces. -/
def spaces (n : Nat) : List Char := List.replicate n ' '

mutual

/-- Structural size of a decoded value, used to bound nesting recursion. -/
def jsonSize : Json → Nat
  | Json.null => 1
  | Json.bool _ => 1
  | Json.num _ => 1
  | Json.fnum _ => 1
  | Json.str _ => 1
  | Json.arr xs => jsonSizeList xs + 1
  | Json.obj ms => jsonSizeMembers ms + 1

/-- Structural size of a list of decoded values. -/
def jsonSizeList : List Json → Nat
  | [] => 0
  | x :: xs => jsonSize x + jsonSizeList xs + 1

/-- Structural size of the members of a decoded dictionary. -/
def jsonSizeMembers : List (String × Json) → Nat
  | [] => 0
  | (_, v) :: ps => jsonSize v + jsonSizeMembers ps + 1

end

/-- Join character chunks with a separator. -/
def sepJoin (sep : List Char) : List (List Char) → List Char
  | [] => []
  | [x] => x
  | x :: xs => x ++ sep ++ sepJoin sep xs

/-- `json.dumps(v, indent=ind)` rendering at current indentation `ind`;
`fuel` bounds the nesting recursion and any `fuel` above the nesting depth
(in particular `jsonSize v`) is enough.  `NaN` and the infinities render
as `json.dumps` renders them; a finite float is rendered from its decimal
components (Python's shortest-repr float formatting is out of scope, and
no claim concerns prompts over float-valued criteria). -/
def dumpIndentF : Nat → Nat → Json → List Char
  | 0, _, _ => []
  | f + 1, ind, v =>
    match v with
    | Json.null => ['n', 'u', 'l', 'l']
    | Json.bool true => ['t', 'r', 'u', 'e']
    | Json.bool false => ['f', 'a', 'l', 's', 'e']
    | Json.num i => intToChars i
    | Json.fnum (JsonFloat.finite neg m e) =>
      (if neg then ['-'] else []) ++
        (natToChars m ++ (if e = 0 then [] else 'e' :: intToChars e))
    | Json.fnum (JsonFloat.inf neg) =>
      (if neg then ['-'] else []) ++ ['I', 'n', 'f', 'i', 'n', 'i', 't', 'y']
    | Json.fnum JsonFloat.nan => ['N', 'a', 'N']
    | Json.str s => dumpStr s
    | Json.arr [] => ['[', ']']
    | Json.arr xs =>
      '[' :: '\n' ::
        (sepJoin [',', '\n'] (xs.map (fun x => spaces (ind + 2) ++ dumpIndentF f (ind + 2) x)) ++
          '\n' :: (spaces ind ++ [']']))
    | Json.obj [] => [lbrace, rbrace]
    | Json.obj ms =>
      lbrace :: '\n' ::
        (sepJoin [',', '\n'] (ms.map (fun p =>
            spaces (ind + 2) ++ dumpStr p.1 ++ ':' :: ' ' :: dumpIndentF f (ind + 2) p.2)) ++
          '\n' :: (spaces ind ++ [rbrace]))

/-- `json.dumps(v, indent=2)` as used in `create_audit_prompt`. -/
def jsonDumpsIndent (v : Json) : String := String.mk (dumpIndentF (jsonSize v) 0 v)

/-- The literal prompt text before the rendered criteria. -/
def promptIntro : String :=
  "\nPlease analyze the following customer support call transcript according to these criteria:\n\n"

/-- The literal prompt text between the rendered criteria and the verbatim
transcript: assessment instructions and the required output schema. -/
def promptInstructions : String :=
  "\n\nProvide a detailed assessment for each criterion with specific examples from the transcript.\nFor each criterion, provide a score from 1-10 and justify your rating.\nAlso calculate an overall score and provide a summary of strengths and areas for improvement.\n\nYour response should be in JSON format with the following structure:\n\x7b\n    \"overall_score\": <score>,\n    \"criteria_scores\": \x7b\n        \"<criterion_name>\": \x7b\n            \"score\": <score>,\n            \"assessment\": \"<detailed assessment>\",\n            \"examples\": [\"<example from transcript>\", ...]\n        \x7d,\n        ...\n    \x7d,\n    \"strengths\": [\"<strength 1>\", ...],\n    \"areas_for_improvement\": [\"<area 1>\", ...],\n    \"summary\": \"<overall assessment summary>\"\n\x7d\n\nHere is the transcript:\n\n"

/-- `CallAuditApp.create_audit_prompt`: the f-string template combining the
fixed instruction text, `json.dumps(criteria, indent=2)` and the verbatim
transcript, which the template closes with a final newline. -/
def create_audit_prompt (transcript : String) (criteria : Json) : String :=
  promptIntro ++ jsonDumpsIndent criteria ++ promptInstructions ++ transcript ++ "\n"

/-- The fixed system-role instruction of the completion request. -/
def systemMessage : String :=
  "You are an expert call center quality analyst. Your task is to analyze customer support call transcripts and provide objective feedback based on the provided criteria."

/-- The single outbound chat-completion request built by
`analyze_transcript`. -/
structure ChatRequest where
  model : String
  system : String
  user : String
  response_format_json : Bool

/-- The request `analyze_transcript` sends for a given prompt. -/
def mkChatRequest (prompt : String) : ChatRequest :=
  { model := "gpt-4", system := systemMessage, user := prompt, response_format_json := true }

/-- The `if criteria is None: criteria = self.default_criteria()` step of
`analyze_transcript`. -/
def effectiveCriteria (criteria : Option Json) : Json :=
  criteria.getD default_criteria

/-- `CallAuditApp.analyze_transcript`: resolve criteria, build the prompt,
invoke the completion service once, and decode its textual payload.  The
transport is the function argument `invoke`; an exception it raises (of any
type `ε`) propagates untouched, since the source wraps only `json.loads` in
a `try`. -/
def analyze_transcript {ε : Type} (invoke : ChatRequest → Except ε String)
    (transcript : String) (criteria : Option Json) : Except ε Json :=
  let prompt := create_audit_prompt transcript (effectiveCriteria criteria)
  match invoke (mkChatRequest prompt) with
  | Except.error e => Except.error e
  | Except.ok raw => Except.ok (decode raw)

/-- Is the binary64 value of the decimal `m * 10 ^ e` equal to `0.0`?
Under round-half-even this holds exactly when the magnitude is at most
half the smallest subnormal, `2 ^ (-1075)` (the tie rounds to the even
mantissa, zero).  The digit-count guard keeps the test cheap for huge
negative exponents and is sound because `m < 10 ^ digits` and
`2 ^ 1075 < 10 ^ 324`. -/
def floatIsZero (m : Nat) (e : Int) : Bool :=
  if m = 0 then true
  else
    match e with
    | Int.ofNat _ => false
    | Int.negSucc k1 =>
      if (natToChars m).length + 400 ≤ k1 + 1 then true
      else m * 2 ^ 1075 ≤ 10 ^ (k1 + 1)

/-- Python truthiness of a decoded JSON value; a finite float is falsy
exactly when its rounded value is `0.0`, and `nan` and the infinities are
truthy. -/
def jsonTruthy : Json → Bool
  | Json.null => false
  | Json.bool b => b
  | Json.num n => n != 0
  | Json.fnum (JsonFloat.finite _ m e) => !floatIsZero m e
  | Json.fnum (JsonFloat.inf _) => true
  | Json.fnum JsonFloat.nan => true
  | Json.str s => !s.data.isEmpty
  | Json.arr xs => !xs.isEmpty
  | Json.obj ms => !ms.isEmpty

/-- The invalid-rubric message rendered by the `/analyze` route. -/
def rubricErrMsg : String := "Invalid JSON format for custom criteria"

/-- Rubric resolution of the `/analyze` route: an empty form field keeps the
initial empty dictionary; otherwise the text is parsed with `json.loads`,
a parse failure renders the invalid-rubric error, and the parsed value is
then passed to the engine if truthy and replaced by `None` (so that the
engine falls back to the defaults) if falsy. -/
def resolveRubric (criteria_text : String) : Except String (Option Json) :=
  if criteria_text = "" then Except.ok none
  else
    match parseJson criteria_text with
    | none => Except.error rubricErrMsg
    | some v => Except.ok (if jsonTruthy v then some v else none)

/-- Does `needle` occur as a contiguous subsequence of `hay`? -/
def containsSeq (needle : List Char) : List Char → Bool
  | [] => needle.isEmpty
  | c :: t => needle.isPrefixOf (c :: t) || containsSeq needle t

/-- Python's `'error' in analysis` membership test on a decoded value:
key test on a dictionary, substring test on a string, element test on a
list, and a `TypeError` (modelled as `none`) on the remaining types. -/
def pyInError : Json → Option Bool
  | Json.obj ms => some (ms.any (fun p => p.1 == "error"))
  | Json.str s => some (containsSeq "error".data s.data)
  | Json.arr xs =>
    some (xs.any (fun x => match x with | Json.str s => s == "error" | _ => false))
  | _ => none

/-- Observable outcome of the `/analyze` route handler. -/
inductive RouteOutcome where
  | noTranscript : RouteOutcome
  | rubricError : String → RouteOutcome
  | analysisError : Json → RouteOutcome
  | membershipTypeError : Json → RouteOutcome
  | success : Json → String → RouteOutcome

/-- The `/analyze` route handler from the point where the transcript text
and the `custom_criteria` form field are in hand: reject an empty
transcript, resolve the rubric, run `analyze_transcript`, and branch on
`'error' in analysis`. -/
def analyze {ε : Type} (invoke : ChatRequest → Except ε String)
    (transcript : String) (criteria_text : String) : Except ε RouteOutcome :=
  if transcript = "" then Except.ok RouteOutcome.noTranscript
  else
    match resolveRubric criteria_text with
    | Except.error msg => Except.ok (RouteOutcome.rubricError msg)
    | Except.ok critOpt =>
      match analyze_transcript invoke transcript critOpt with
      | Except.error e => Except.error e
      | Except.ok analysis =>
        match pyInError analysis with
        | none => Except.ok (RouteOutcome.membershipTypeError analysis)
        | some true => Except.ok (RouteOutcome.analysisError analysis)
        | some false => Except.ok (RouteOutcome.success analysis transcript)

/-- One criterion's entry in a synthetic audit report. -/
structure CriterionScore where
  score : Int
  assessment : String
  examples : List String

/-- A well-formed synthetic audit report, per the AuditReport shape of the
specification: overall score, per-criterion scores, strengths, improvement
areas and a summary. -/
structure AuditReport where
  overall_score : Int
  criteria_scores : List (String × CriterionScore)
  strengths : List String
  areas_for_improvement : List String
  summary : String

/-- The decoded-value form of a criterion entry. -/
def CriterionScore.toJson (c : CriterionScore) : Json :=
  Json.obj [("score", Json.num c.score),
            ("assessment", Json.str c.assessment),
            ("examples", Json.arr (c.examples.map Json.str))]

/-- The decoded-value form of a synthetic report. -/
def AuditReport.toJson (r : AuditReport) : Json :=
  Json.obj [("overall_score", Json.num r.overall_score),
            ("criteria_scores", Json.obj (r.criteria_scores.map (fun p => (p.1, p.2.toJson)))),
            ("strengths", Json.arr (r.strengths.map Json.str)),
            ("areas_for_improvement", Json.arr (r.areas_for_improvement.map Json.str)),
            ("summary", Json.str r.summary)]

/-- Compact rendering of a JSON array of strings. -/
def dumpStrElems : List String → List Char
  | [] => []
  | [s] => dumpStr s
  | s :: rest => dumpStr s ++ ',' :: dumpStrElems rest

/-- Compact rendering of a JSON array of strings with its brackets. -/
def serializeStrArr (xs : List String) : List Char :=
  '[' :: (dumpStrElems xs ++ [']'])

/-- Compact rendering of one criterion entry's value. -/
def serializeCritScore (c : CriterionScore) : List Char :=
  lbrace :: (dumpStr "score" ++ ':' :: (intToChars c.score ++
    ',' :: (dumpStr "assessment" ++ ':' :: (dumpStr c.assessment ++
    ',' :: (dumpStr "examples" ++ ':' :: (serializeStrArr c.examples ++ [rbrace]))))))

/-- Compact rendering of the members of the criteria-scores dictionary. -/
def serializeCritMembers : List (String × CriterionScore) → List Char
  | [] => []
  | [(k, c)] => dumpStr k ++ ':' :: serializeCritScore c
  | (k, c) :: rest => dumpStr k ++ ':' :: (serializeCritScore c ++ ',' :: serializeCritMembers rest)

/-- Compact rendering of the criteria-scores dictionary with its braces. -/
def serializeCritObj (l : List (String × CriterionScore)) : List Char :=
  match l with
  | [] => [lbrace, rbrace]
  | _ => lbrace :: (serializeCritMembers l ++ [rbrace])

/-- The characters of the serialized synthetic report. -/
def serializeChars (r : AuditReport) : List Char :=
  lbrace :: (dumpStr "overall_score" ++ ':' :: (intToChars r.overall_score ++
    ',' :: (dumpStr "criteria_scores" ++ ':' :: (serializeCritObj r.criteria_scores ++
    ',' :: (dumpStr "strengths" ++ ':' :: (serializeStrArr r.strengths ++
    ',' :: (dumpStr "areas_for_improvement" ++ ':' :: (serializeStrArr r.areas_for_improvement ++
    ',' :: (dumpStr "summary" ++ ':' :: (dumpStr r.summary ++ [rbrace]))))))))))

/-- Modelled from the spec: `serialize` (§8, round-trip identity) is the
inverse textualization of a well-formed synthetic report, which the
repository itself does not contain (responses are produced by the external
completion service).  It renders the report as canonical JSON text. -/
def serialize (r : AuditReport) : String := String.mk (serializeChars r)

/-- Modelled from the spec: a valid custom rubric is a mapping from
criterion name to criterion question (§4.1), i.e. a dictionary whose values
are strings.  Used only to compare the spec's wording with the code's
behaviour. -/
def isNameQuestionMapping : Json → Bool
  | Json.obj ms => ms.all (fun p => match p.2 with | Json.str _ => true | _ => false)
  | _ => false

/-- A syntactically valid payload that carries a top-level `error` key with
the decode-failure marker text, colliding with the shape of the decode
failure dictionary for the raw text `boom`. -/
def errorKeyPayload : String :=
  "\x7b\"error\": \"Failed to parse API response\", \"raw_response\": \"boom\"\x7d"

/-- Does the input start with a non-digit (or is empty)?  Used to state
where greedy digit consumption stops. -/
def headNotDigitB : List Char → Bool
  | [] => true
  | c :: _ => !c.isDigit

/-- Does the input start with something that cannot continue a number
literal (no digit, no fraction dot, no exponent letter), or is it empty?
Used to state where a whole number literal stops. -/
def numStopB : List Char → Bool
  | [] => true
  | c :: _ => !(c.isDigit || c == '.' || c == 'e' || c == 'E')

/-- Parser fuel sufficient for the members of the criteria-scores
dictionary. -/
def critFuel : List (String × CriterionScore) → Nat
  | [] => 0
  | (_, c) :: tl => c.examples.length + 9 + critFuel tl

/-- Parser fuel sufficient for a whole serialized report. -/
def reportFuel (r : AuditReport) : Nat :=
  critFuel r.criteria_scores + r.strengths.length + r.areas_for_improvement.length + 8

/-! ## Helper lemmas -/

/-- The empty string is not valid JSON. -/
theorem parseJson_empty : parseJson "" = none := rfl

/-- A string that parses is not empty. -/
theorem parseJson_some_ne_empty {t : String} {v : Json} (h : parseJson t = some v) :
    t ≠ "" := by
  rintro rfl
  rw [parseJson_empty] at h
  cases h

/-- Samples of the accept frontier of `parseJson`, agreeing with
`json.loads`: leading-zero numerals and raw control characters in string
literals are rejected, while fractions, exponents, `NaN` and the
infinities are accepted. -/
theorem parseJson_frontier_samples :
    parseJson "07" = none ∧
    parseJson "[07]" = none ∧
    parseJson "\"a\x01b\"" = none ∧
    parseJson "1.5" = some (Json.fnum (JsonFloat.finite false 15 (-1))) ∧
    parseJson "0.5" = some (Json.fnum (JsonFloat.finite false 5 (-1))) ∧
    parseJson "1E+07" = some (Json.fnum (JsonFloat.finite false 1 7)) ∧
    parseJson "NaN" = some (Json.fnum JsonFloat.nan) ∧
    parseJson "Infinity" = some (Json.fnum (JsonFloat.inf false)) ∧
    parseJson "-Infinity" = some (Json.fnum (JsonFloat.inf true)) ∧
    parseJson "1." = none ∧
    parseJson "1e" = none ∧
    parseJson "-NaN" = none :=
  ⟨rfl, rfl, rfl, rfl, rfl, rfl, rfl, rfl, rfl, rfl, rfl, rfl⟩

/-! ## Claims -/

/-- C1: for every raw response text on which `json.loads` fails, `decode`
returns the tagged failure dictionary that carries the error marker and the
original raw text unchanged (and, being a total function, never throws past
the decode boundary). -/
theorem C1_decode_failure_tagged (raw : String) (h : parseJson raw = none) :
    decode raw =
      Json.obj [("error", Json.str decodeFailMsg), ("raw_response", Json.str raw)] := by
  unfold decode
  rw [h]

/-- C1 witness: the literal text `not valid json` does not parse, and its
decode failure dictionary carries that raw text unchanged. -/
theorem C1_decode_failure_tagged_witness :
    parseJson "not valid json" = none ∧
    decode "not valid json" =
      Json.obj [("error", Json.str "Failed to parse API response"),
                ("raw_response", Json.str "not valid json")] :=
  ⟨rfl, C1_decode_failure_tagged "not valid json" rfl⟩

/-- C4: with no custom rubric the engine falls back to `default_criteria`,
which consists of exactly the ten fixed criteria in source order, each with
non-empty question text. -/
theorem C4_default_rubric_ten_criteria :
    resolveRubric "" = Except.ok none ∧
    effectiveCriteria none = default_criteria ∧
    default_criteria = Json.obj defaultCriteriaPairs ∧
    defaultCriteriaPairs.map Prod.fst =
      ["greeting", "listening", "problem_solving", "knowledge", "empathy",
       "clarity", "resolution", "closing", "adherence_to_protocol", "professionalism"] ∧
    defaultCriteriaPairs.all
      (fun p => match p.2 with | Json.str q => !q.isEmpty | _ => false) = true :=
  ⟨rfl, rfl, rfl, rfl, rfl⟩

/-- C5: a well-formed custom mapping with at least one entry is passed to
the engine exactly as parsed: no merge with the defaults, no deduplication,
no reordering, no semantic validation. -/
theorem C5_custom_rubric_unchanged (entries : List (String × Json)) (t : String)
    (hne : entries ≠ []) (hp : parseJson t = some (Json.obj entries)) :
    resolveRubric t = Except.ok (some (Json.obj entries)) ∧
    effectiveCriteria (some (Json.obj entries)) = Json.obj entries := by
  refine ⟨?_, rfl⟩
  have ht : t ≠ "" := parseJson_some_ne_empty hp
  have htru : jsonTruthy (Json.obj entries) = true := by
    cases entries with
    | nil => exact absurd rfl hne
    | cons a l => rfl
  unfold resolveRubric
  rw [if_neg ht, hp]
  simp [htru]

/-- C5 witness: the one-entry custom rubric of end-to-end scenario 3. -/
theorem C5_custom_rubric_unchanged_witness :
    resolveRubric "\x7b\"tone\": \"Was the tone friendly?\"\x7d" =
      Except.ok (some (Json.obj [("tone", Json.str "Was the tone friendly?")])) ∧
    effectiveCriteria (some (Json.obj [("tone", Json.str "Was the tone friendly?")])) =
      Json.obj [("tone", Json.str "Was the tone friendly?")] :=
  C5_custom_rubric_unchanged [("tone", Json.str "Was the tone friendly?")]
    "\x7b\"tone\": \"Was the tone friendly?\"\x7d" (List.cons_ne_nil _ _) rfl

/-- C7: a transport-level failure of the completion call propagates
unmodified out of `analyze_transcript` as the error channel, so no report
(partial or otherwise) is produced and decoding never happens. -/
theorem C7_transport_error_propagates {ε : Type} (invoke : ChatRequest → Except ε String)
    (transcript : String) (criteria : Option Json) (e : ε)
    (h : invoke (mkChatRequest
        (create_audit_prompt transcript (effectiveCriteria criteria))) = Except.error e) :
    analyze_transcript invoke transcript criteria = Except.error e := by
  simp [analyze_transcript, h]

/-- C7 witness: a stub transport that raises a simulated 401 for every
request makes `analyze_transcript` surface exactly that error. -/
theorem C7_transport_error_propagates_witness :
    analyze_transcript (fun _ => Except.error "401 Unauthorized") "Agent: hi" none =
      Except.error "401 Unauthorized" :=
  C7_transport_error_propagates _ "Agent: hi" none "401 Unauthorized" rfl

/-- C8: prompt construction is a pure function of transcript and rubric
(equal inputs give equal outputs), and the transcript is inserted verbatim
with no truncation or escaping, as the final content of the prompt before
the template's closing newline. -/
theorem C8_prompt_deterministic_verbatim :
    (∀ (t₁ t₂ : String) (c₁ c₂ : Json), t₁ = t₂ → c₁ = c₂ →
      create_audit_prompt t₁ c₁ = create_audit_prompt t₂ c₂) ∧
    (∀ (t : String) (c : Json),
      (create_audit_prompt t c).data =
        (promptIntro ++ jsonDumpsIndent c ++ promptInstructions).data ++ t.data ++ ['\n']) := by
  constructor
  · intro t₁ t₂ c₁ c₂ ht hc
    rw [ht, hc]
  · intro t c
    show (promptIntro ++ jsonDumpsIndent c ++ promptInstructions ++ t ++ "\n").data = _
    simp only [String.data_append, List.append_assoc]

/-- C8 witness: instantiation at a concrete transcript and the default
rubric. -/
theorem C8_prompt_deterministic_verbatim_witness :
    create_audit_prompt "Agent: hi" default_criteria =
      create_audit_prompt "Agent: hi" default_criteria :=
  C8_prompt_deterministic_verbatim.1 "Agent: hi" "Agent: hi"
    default_criteria default_criteria rfl rfl

/-- C10: whenever the custom-criteria text parses to a falsy value (empty
dictionary, zero, false, null, empty string or empty list), the route keeps
no custom rubric and the engine proceeds with the ten default criteria. -/
theorem C10_falsy_rubric_uses_defaults (t : String) (v : Json)
    (hp : parseJson t = some v) (hf : jsonTruthy v = false) :
    resolveRubric t = Except.ok none ∧ effectiveCriteria none = default_criteria := by
  refine ⟨?_, rfl⟩
  have ht : t ≠ "" := parseJson_some_ne_empty hp
  unfold resolveRubric
  rw [if_neg ht, hp]
  simp [hf]

/-- C10 witness: the falsy payload `0`. -/
theorem C10_falsy_rubric_uses_defaults_witness :
    resolveRubric "0" = Except.ok none ∧ effectiveCriteria none = default_criteria :=
  C10_falsy_rubric_uses_defaults "0" (Json.num 0) rfl rfl

/-- C2 counterexample: the input `[1, 2, 3]` is syntactically valid JSON but
is not a name-to-question mapping, yet rubric resolution does not surface
the invalid-rubric error — the parsed list is handed to the engine and the
flow completes normally (here with a stub transport returning `\x7b\x7d`). -/
theorem C2_not_mapping_accepted :
    parseJson "[1, 2, 3]" = some (Json.arr [Json.num 1, Json.num 2, Json.num 3]) ∧
    isNameQuestionMapping (Json.arr [Json.num 1, Json.num 2, Json.num 3]) = false ∧
    resolveRubric "[1, 2, 3]" =
      Except.ok (some (Json.arr [Json.num 1, Json.num 2, Json.num 3])) ∧
    analyze (fun _ => (Except.ok "\x7b\x7d" : Except String String)) "Agent: hi" "[1, 2, 3]" =
      Except.ok (RouteOutcome.success (Json.obj []) "Agent: hi") :=
  ⟨rfl, rfl, rfl, rfl⟩

/-- C2 amended: rubric resolution surfaces the invalid-rubric error exactly
when the custom input fails to parse as JSON (not when it fails to be a
name-to-question mapping); on that error the caller is shown the message
and the engine is never invoked, whatever the transport would do. -/
theorem C2_rubric_error_iff_parse_failure (t : String) (ht : t ≠ "") :
    ((∃ msg, resolveRubric t = Except.error msg) ↔ parseJson t = none) ∧
    (parseJson t = none → ∀ {ε : Type} (invoke : ChatRequest → Except ε String)
      (tr : String), tr ≠ "" →
      analyze invoke tr t = Except.ok (RouteOutcome.rubricError rubricErrMsg)) := by
  have hres : parseJson t = none → resolveRubric t = Except.error rubricErrMsg := by
    intro hn
    unfold resolveRubric
    rw [if_neg ht, hn]
  constructor
  · constructor
    · rintro ⟨msg, hm⟩
      unfold resolveRubric at hm
      rw [if_neg ht] at hm
      cases hh : parseJson t with
      | none => rfl
      | some v => rw [hh] at hm; cases hm
    · intro hn
      exact ⟨rubricErrMsg, hres hn⟩
  · intro hn ε invoke tr htr
    unfold analyze
    rw [if_neg htr, hres hn]

/-- C2 witness: at the non-JSON input `not json` the route renders the
invalid-rubric error without calling the transport. -/
theorem C2_rubric_error_iff_parse_failure_witness :
    analyze (fun _ => (Except.ok "unused" : Except String String)) "Agent: hi" "not json" =
      Except.ok (RouteOutcome.rubricError "Invalid JSON format for custom criteria") :=
  (C2_rubric_error_iff_parse_failure "not json" (by decide)).2 rfl
    (fun _ => (Except.ok "unused" : Except String String)) "Agent: hi" (by decide)

/-- C9: success and failure of `decode` travel through one untyped channel;
the failure result is a plain dictionary whose only distinguishing feature
is the `error` key holding the fixed marker text, and the caller classifies
by `'error' in analysis` alone.  Consequently the syntactically valid
payload `errorKeyPayload` decodes successfully to the very same dictionary
as the decode failure for the raw text `boom`, and the route treats it as
an analysis error. -/
theorem C9_error_key_collision :
    (∀ raw, parseJson raw = none →
      decode raw =
        Json.obj [("error", Json.str decodeFailMsg), ("raw_response", Json.str raw)] ∧
      pyInError (decode raw) = some true) ∧
    (parseJson errorKeyPayload =
        some (Json.obj [("error", Json.str decodeFailMsg),
                        ("raw_response", Json.str "boom")]) ∧
     decode errorKeyPayload = decode "boom" ∧
     analyze (fun _ => (Except.ok errorKeyPayload : Except String String)) "Agent: hi" "" =
       Except.ok (RouteOutcome.analysisError
         (Json.obj [("error", Json.str decodeFailMsg),
                    ("raw_response", Json.str "boom")]))) := by
  constructor
  · intro raw h
    unfold decode
    rw [h]
    exact ⟨rfl, rfl⟩
  · exact ⟨rfl, rfl, rfl⟩

/-- C9 witness: the generic failure conjunct applied at the raw text
`boom`. -/
theorem C9_error_key_collision_witness :
    decode "boom" =
      Json.obj [("error", Json.str "Failed to parse API response"),
                ("raw_response", Json.str "boom")] ∧
    pyInError (decode "boom") = some true :=
  C9_error_key_collision.1 "boom" rfl


/-- Character-level decomposition of the constructed prompt: fixed text,
rendered criteria, fixed instructions, verbatim transcript, final newline. -/
theorem create_audit_prompt_data (t : String) (c : Json) :
    (create_audit_prompt t c).data =
      promptIntro.data ++ ((jsonDumpsIndent c).data ++
        (promptInstructions.data ++ (t.data ++ ['\n']))) := by
  show (promptIntro ++ jsonDumpsIndent c ++ promptInstructions ++ t ++ "\n").data = _
  simp only [String.data_append, List.append_assoc]

/-- C6: for every non-empty transcript, the prompt built over the default
rubric contains each criterion's question text as a substring and the
transcript verbatim as a substring, with the transcript appended at the end
(only the template's closing newline follows it). -/
theorem C6_prompt_contains_questions_and_transcript (t : String) (_ht : t ≠ "") :
    (∀ name q, (name, Json.str q) ∈ defaultCriteriaPairs →
      q.data <:+: (create_audit_prompt t default_criteria).data) ∧
    t.data <:+: (create_audit_prompt t default_criteria).data ∧
    (∃ pre, (create_audit_prompt t default_criteria).data = pre ++ (t.data ++ ['\n'])) := by
  have hd := create_audit_prompt_data t default_criteria
  refine ⟨?_, ?_, ?_⟩
  · intro name q hm
    have hq : q.data <:+: (jsonDumpsIndent default_criteria).data := by
      simp only [defaultCriteriaPairs, List.mem_cons, List.not_mem_nil, or_false,
        Prod.mk.injEq, Json.str.injEq] at hm
      rcases hm with h | h | h | h | h | h | h | h | h | h <;> obtain ⟨-, rfl⟩ := h
      · exact ⟨("\x7b\n  \"greeting\": \"" : String).data, ("\",\n  \"listening\": \"Did the agent actively listen to the customer's concerns?\",\n  \"problem_solving\": \"Did the agent demonstrate effective problem-solving skills?\",\n  \"knowledge\": \"Did the agent demonstrate sufficient product/service knowledge?\",\n  \"empathy\": \"Did the agent show empathy and understanding?\",\n  \"clarity\": \"Was the agent's communication clear and easy to understand?\",\n  \"resolution\": \"Did the agent properly resolve the customer's issue?\",\n  \"closing\": \"Did the agent provide a proper closing to the call?\",\n  \"adherence_to_protocol\": \"Did the agent follow company protocols and procedures?\",\n  \"professionalism\": \"Did the agent maintain professionalism throughout the call?\"\n\x7d" : String).data, by decide⟩
      · exact ⟨("\x7b\n  \"greeting\": \"Did the agent use a proper greeting and introduce themselves?\",\n  \"listening\": \"" : String).data, ("\",\n  \"problem_solving\": \"Did the agent demonstrate effective problem-solving skills?\",\n  \"knowledge\": \"Did the agent demonstrate sufficient product/service knowledge?\",\n  \"empathy\": \"Did the agent show empathy and understanding?\",\n  \"clarity\": \"Was the agent's communication clear and easy to understand?\",\n  \"resolution\": \"Did the agent properly resolve the customer's issue?\",\n  \"closing\": \"Did the agent provide a proper closing to the call?\",\n  \"adherence_to_protocol\": \"Did the agent follow company protocols and procedures?\",\n  \"professionalism\": \"Did the agent maintain professionalism throughout the call?\"\n\x7d" : String).data, by decide⟩
      · exact ⟨("\x7b\n  \"greeting\": \"Did the agent use a proper greeting and introduce themselves?\",\n  \"listening\": \"Did the agent actively listen to the customer's concerns?\",\n  \"problem_solving\": \"" : String).data, ("\",\n  \"knowledge\": \"Did the agent demonstrate sufficient product/service knowledge?\",\n  \"empathy\": \"Did the agent show empathy and understanding?\",\n  \"clarity\": \"Was the agent's communication clear and easy to understand?\",\n  \"resolution\": \"Did the agent properly resolve the customer's issue?\",\n  \"closing\": \"Did the agent provide a proper closing to the call?\",\n  \"adherence_to_protocol\": \"Did the agent follow company protocols and procedures?\",\n  \"professionalism\": \"Did the agent maintain professionalism throughout the call?\"\n\x7d" : String).data, by decide⟩
      · exact ⟨("\x7b\n  \"greeting\": \"Did the agent use a proper greeting and introduce themselves?\",\n  \"listening\": \"Did the agent actively listen to the customer's concerns?\",\n  \"problem_solving\": \"Did the agent demonstrate effective problem-solving skills?\",\n  \"knowledge\": \"" : String).data, ("\",\n  \"empathy\": \"Did the agent show empathy and understanding?\",\n  \"clarity\": \"Was the agent's communication clear and easy to understand?\",\n  \"resolution\": \"Did the agent properly resolve the customer's issue?\",\n  \"closing\": \"Did the agent provide a proper closing to the call?\",\n  \"adherence_to_protocol\": \"Did the agent follow company protocols and procedures?\",\n  \"professionalism\": \"Did the agent maintain professionalism throughout the call?\"\n\x7d" : String).data, by decide⟩
      · exact ⟨("\x7b\n  \"greeting\": \"Did the agent use a proper greeting and introduce themselves?\",\n  \"listening\": \"Did the agent actively listen to the customer's concerns?\",\n  \"problem_solving\": \"Did the agent demonstrate effective problem-solving skills?\",\n  \"knowledge\": \"Did the agent demonstrate sufficient product/service knowledge?\",\n  \"empathy\": \"" : String).data, ("\",\n  \"clarity\": \"Was the agent's communication clear and easy to understand?\",\n  \"resolution\": \"Did the agent properly resolve the customer's issue?\",\n  \"closing\": \"Did the agent provide a proper closing to the call?\",\n  \"adherence_to_protocol\": \"Did the agent follow company protocols and procedures?\",\n  \"professionalism\": \"Did the agent maintain professionalism throughout the call?\"\n\x7d" : String).data, by decide⟩
      · exact ⟨("\x7b\n  \"greeting\": \"Did the agent use a proper greeting and introduce themselves?\",\n  \"listening\": \"Did the agent actively listen to the customer's concerns?\",\n  \"problem_solving\": \"Did the agent demonstrate effective problem-solving skills?\",\n  \"knowledge\": \"Did the agent demonstrate sufficient product/service knowledge?\",\n  \"empathy\": \"Did the agent show empathy and understanding?\",\n  \"clarity\": \"" : String).data, ("\",\n  \"resolution\": \"Did the agent properly resolve the customer's issue?\",\n  \"closing\": \"Did the agent provide a proper closing to the call?\",\n  \"adherence_to_protocol\": \"Did the agent follow company protocols and procedures?\",\n  \"professionalism\": \"Did the agent maintain professionalism throughout the call?\"\n\x7d" : String).data, by decide⟩
      · exact ⟨("\x7b\n  \"greeting\": \"Did the agent use a proper greeting and introduce themselves?\",\n  \"listening\": \"Did the agent actively listen to the customer's concerns?\",\n  \"problem_solving\": \"Did the agent demonstrate effective problem-solving skills?\",\n  \"knowledge\": \"Did the agent demonstrate sufficient product/service knowledge?\",\n  \"empathy\": \"Did the agent show empathy and understanding?\",\n  \"clarity\": \"Was the agent's communication clear and easy to understand?\",\n  \"resolution\": \"" : String).data, ("\",\n  \"closing\": \"Did the agent provide a proper closing to the call?\",\n  \"adherence_to_protocol\": \"Did the agent follow company protocols and procedures?\",\n  \"professionalism\": \"Did the agent maintain professionalism throughout the call?\"\n\x7d" : String).data, by decide⟩
      · exact ⟨("\x7b\n  \"greeting\": \"Did the agent use a proper greeting and introduce themselves?\",\n  \"listening\": \"Did the agent actively listen to the customer's concerns?\",\n  \"problem_solving\": \"Did the agent demonstrate effective problem-solving skills?\",\n  \"knowledge\": \"Did the agent demonstrate sufficient product/service knowledge?\",\n  \"empathy\": \"Did the agent show empathy and understanding?\",\n  \"clarity\": \"Was the agent's communication clear and easy to understand?\",\n  \"resolution\": \"Did the agent properly resolve the customer's issue?\",\n  \"closing\": \"" : String).data, ("\",\n  \"adherence_to_protocol\": \"Did the agent follow company protocols and procedures?\",\n  \"professionalism\": \"Did the agent maintain professionalism throughout the call?\"\n\x7d" : String).data, by decide⟩
      · exact ⟨("\x7b\n  \"greeting\": \"Did the agent use a proper greeting and introduce themselves?\",\n  \"listening\": \"Did the agent actively listen to the customer's concerns?\",\n  \"problem_solving\": \"Did the agent demonstrate effective problem-solving skills?\",\n  \"knowledge\": \"Did the agent demonstrate sufficient product/service knowledge?\",\n  \"empathy\": \"Did the agent show empathy and understanding?\",\n  \"clarity\": \"Was the agent's communication clear and easy to understand?\",\n  \"resolution\": \"Did the agent properly resolve the customer's issue?\",\n  \"closing\": \"Did the agent provide a proper closing to the call?\",\n  \"adherence_to_protocol\": \"" : String).data, ("\",\n  \"professionalism\": \"Did the agent maintain professionalism throughout the call?\"\n\x7d" : String).data, by decide⟩
      · exact ⟨("\x7b\n  \"greeting\": \"Did the agent use a proper greeting and introduce themselves?\",\n  \"listening\": \"Did the agent actively listen to the customer's concerns?\",\n  \"problem_solving\": \"Did the agent demonstrate effective problem-solving skills?\",\n  \"knowledge\": \"Did the agent demonstrate sufficient product/service knowledge?\",\n  \"empathy\": \"Did the agent show empathy and understanding?\",\n  \"clarity\": \"Was the agent's communication clear and easy to understand?\",\n  \"resolution\": \"Did the agent properly resolve the customer's issue?\",\n  \"closing\": \"Did the agent provide a proper closing to the call?\",\n  \"adherence_to_protocol\": \"Did the agent follow company protocols and procedures?\",\n  \"professionalism\": \"" : String).data, ("\"\n\x7d" : String).data, by decide⟩
    rw [hd]
    exact hq.trans ⟨promptIntro.data, promptInstructions.data ++ (t.data ++ ['\n']),
      by simp [List.append_assoc]⟩
  · rw [hd]
    exact ⟨promptIntro.data ++ ((jsonDumpsIndent default_criteria).data ++
      promptInstructions.data), ['\n'], by simp [List.append_assoc]⟩
  · rw [hd]
    exact ⟨promptIntro.data ++ ((jsonDumpsIndent default_criteria).data ++
      promptInstructions.data), by simp [List.append_assoc]⟩

/-- C6 witness: the transcript of end-to-end scenario 1 appears verbatim in
its prompt. -/
theorem C6_prompt_contains_questions_and_transcript_witness :
    ("Agent: Hello, how can I help?" : String).data <:+:
      (create_audit_prompt "Agent: Hello, how can I help?" default_criteria).data :=
  (C6_prompt_contains_questions_and_transcript "Agent: Hello, how can I help?"
    (by decide)).2.1

theorem skipWs_cons (c : Char) (t : List Char) (h : isWsChar c = false) :
    skipWs (c :: t) = c :: t := by
  simp [skipWs, List.dropWhile, h]

theorem hexVal_hexChar {n : Nat} (h : n < 16) : hexVal (hexChar n) = some n := by
  interval_cases n <;> rfl

theorem parseStringBody_escape : ∀ (cs rest : List Char),
    parseStringBody (escapeChars cs ++ ('"' :: rest)) = some (cs, rest)
  | [], rest => by
    show parseStringBody ('"' :: rest) = _
    rw [parseStringBody.eq_def]
    simp
  | c :: cs, rest => by
    show parseStringBody ((escapeChar c ++ escapeChars cs) ++ ('"' :: rest)) = _
    rw [List.append_assoc]
    by_cases h1 : c = '"'
    · subst h1
      show parseStringBody ('\\' :: '"' :: (escapeChars cs ++ ('"' :: rest))) = _
      rw [parseStringBody.eq_def]
      simp [parseStringBody_escape cs rest]
    · by_cases h2 : c = '\\'
      · subst h2
        show parseStringBody ('\\' :: '\\' :: (escapeChars cs ++ ('"' :: rest))) = _
        rw [parseStringBody.eq_def]
        simp [parseStringBody_escape cs rest]
      · by_cases h3 : c.toNat < 32
        · have hv16 : c.toNat % 16 < 16 := Nat.mod_lt _ (by omega)
          have hvd : c.toNat / 16 < 16 := by omega
          have h4 : escapeChar c = '\\' :: 'u' :: '0' :: '0' :: hexChar (c.toNat / 16) ::
              hexChar (c.toNat % 16) :: [] := by
            simp [escapeChar, h1, h2, h3]
          rw [h4]
          simp only [List.cons_append, List.nil_append]
          rw [parseStringBody.eq_def]
          simp only [reduceIte, hexVal_hexChar hvd, hexVal_hexChar hv16,
            show hexVal '0' = some 0 from rfl]
          rw [parseStringBody_escape cs rest]
          simp
          rw [show c.toNat / 16 * 16 + c.toNat % 16 = c.toNat from by omega]
          exact Char.ofNat_toNat c
        · have h4 : escapeChar c = [c] := by
            simp [escapeChar, h1, h2, h3]
          rw [h4, List.singleton_append]
          rw [parseStringBody.eq_def]
          simp [h1, h2, h3, parseStringBody_escape cs rest]

theorem digitChar_facts {m : Nat} (hm : m < 10) :
    (Char.ofNat (48 + m)).isDigit = true ∧ isWsChar (Char.ofNat (48 + m)) = false ∧
    ¬(Char.ofNat (48 + m) = '"') ∧ ¬(Char.ofNat (48 + m) = '-') ∧
    (Char.ofNat (48 + m)).toNat = 48 + m ∧
    ((Char.ofNat (48 + m) = '0') ↔ m = 0) ∧ ¬(Char.ofNat (48 + m) = 'I') := by
  interval_cases m <;>
    exact ⟨rfl, rfl, by decide, by decide, rfl, by decide, by decide⟩

theorem parseDigits_stop (acc : Nat) {rest : List Char} (h : headNotDigitB rest = true) :
    parseDigits acc rest = (acc, rest) := by
  cases rest with
  | nil => rfl
  | cons c r =>
    simp only [headNotDigitB, Bool.not_eq_true'] at h
    rw [parseDigits.eq_def]
    simp [h]

theorem natToCharsAux_parse : ∀ (f n : Nat), n < f → ∀ (acc : Nat) (rest : List Char),
    parseDigits acc (natToCharsAux f n ++ rest) =
      parseDigits (acc * 10 ^ (natToCharsAux f n).length + n) rest := by
  intro f
  induction f with
  | zero => omega
  | succ f ih =>
    intro n hn acc rest
    by_cases h : n < 10
    · obtain ⟨hdig, -, -, -, htn, -, -⟩ := digitChar_facts h
      rw [show natToCharsAux (f + 1) n = [Char.ofNat (48 + n)] from by
        simp [natToCharsAux, h]]
      rw [List.singleton_append, parseDigits.eq_def]
      simp [hdig, htn]
    · obtain ⟨hdig, -, -, -, htn, -, -⟩ := digitChar_facts (show n % 10 < 10 from by omega)
      rw [show natToCharsAux (f + 1) n =
          natToCharsAux f (n / 10) ++ [Char.ofNat (48 + n % 10)] from by
        simp [natToCharsAux, h]]
      rw [List.append_assoc, ih (n / 10) (by omega) acc _, List.singleton_append,
        parseDigits.eq_def]
      simp only [hdig, htn, if_pos, List.length_append, List.length_cons,
        List.length_nil]
      rw [show 48 + n % 10 - 48 = n % 10 from by omega]
      generalize (natToCharsAux f (n / 10)).length = L
      rw [show L + (0 + 1) = L + 1 from by omega, pow_succ]
      generalize (10 : Nat) ^ L = X
      congr 1
      have := Nat.div_add_mod n 10
      ring_nf
      omega

theorem natToChars_parse (n : Nat) {rest : List Char} (h : headNotDigitB rest = true) :
    parseDigits 0 (natToChars n ++ rest) = (n, rest) := by
  unfold natToChars
  rw [natToCharsAux_parse (n + 1) n (by omega), parseDigits_stop _ h]
  simp

theorem natToCharsAux_head : ∀ (f n : Nat), n < f → ∃ (m : Nat) (t : List Char),
    m < 10 ∧ (m = 0 → n = 0) ∧ natToCharsAux f n = Char.ofNat (48 + m) :: t := by
  intro f
  induction f with
  | zero => omega
  | succ f ih =>
    intro n hn
    by_cases h : n < 10
    · exact ⟨n, [], h, fun h0 => h0, by simp [natToCharsAux, h]⟩
    · obtain ⟨m, t, hm, hz, ht⟩ := ih (n / 10) (by omega)
      exact ⟨m, t ++ [Char.ofNat (48 + n % 10)], hm,
        fun h0 => absurd (hz h0) (by omega), by simp [natToCharsAux, h, ht]⟩

theorem natToChars_head (n : Nat) : ∃ (m : Nat) (t : List Char),
    m < 10 ∧ (m = 0 → n = 0) ∧ natToChars n = Char.ofNat (48 + m) :: t :=
  natToCharsAux_head (n + 1) n (by omega)

theorem parseValue_cons (f : Nat) (c : Char) (r : List Char) :
    parseValue (f + 1) (c :: r) =
      (if c = '"' then
        match parseStringBody r with
        | some (cs, rest) => some (Json.str (String.mk cs), rest)
        | none => none
      else if c = '-' then
        match r with
        | [] => none
        | d :: r2 =>
          if d = 'I' then
            match r2 with
            | 'n' :: 'f' :: 'i' :: 'n' :: 'i' :: 't' :: 'y' :: rest =>
              some (Json.fnum (JsonFloat.inf true), rest)
            | _ => none
          else if d.isDigit then parseNumber true (d :: r2)
          else none
      else if c.isDigit then parseNumber false (c :: r)
      else if c = '[' then
        match skipWs r with
        | c1 :: r1 =>
          if c1 = ']' then some (Json.arr [], r1)
          else
            match parseElems f (c1 :: r1) with
            | some (vs, rest) => some (Json.arr vs, rest)
            | none => none
        | [] => none
      else if c = lbrace then
        match skipWs r with
        | c1 :: r1 =>
          if c1 = rbrace then some (Json.obj [], r1)
          else
            match parseMembers f (c1 :: r1) with
            | some (ms, rest) => some (Json.obj ms, rest)
            | none => none
        | [] => none
      else if c = 't' then
        match r with
        | 'r' :: 'u' :: 'e' :: rest => some (Json.bool true, rest)
        | _ => none
      else if c = 'f' then
        match r with
        | 'a' :: 'l' :: 's' :: 'e' :: rest => some (Json.bool false, rest)
        | _ => none
      else if c = 'n' then
        match r with
        | 'u' :: 'l' :: 'l' :: rest => some (Json.null, rest)
        | _ => none
      else if c = 'N' then
        match r with
        | 'a' :: 'N' :: rest => some (Json.fnum JsonFloat.nan, rest)
        | _ => none
      else if c = 'I' then
        match r with
        | 'n' :: 'f' :: 'i' :: 'n' :: 'i' :: 't' :: 'y' :: rest =>
          some (Json.fnum (JsonFloat.inf false), rest)
        | _ => none
      else none) := rfl

theorem parseElems_succ (f : Nat) (s : List Char) :
    parseElems (f + 1) s =
      (match parseValue f s with
      | none => none
      | some (v, r) =>
        match skipWs r with
        | c :: r1 =>
          if c = ',' then
            match parseElems f (skipWs r1) with
            | some (vs, rest) => some (v :: vs, rest)
            | none => none
          else if c = ']' then some ([v], r1)
          else none
        | [] => none) := rfl

theorem parseMembers_cons (f : Nat) (c : Char) (r : List Char) :
    parseMembers (f + 1) (c :: r) =
      (if c = '"' then
        match parseStringBody r with
        | some (kcs, r1) =>
          match skipWs r1 with
          | c1 :: r2 =>
            if c1 = ':' then
              match parseValue f (skipWs r2) with
              | some (v, r3) =>
                match skipWs r3 with
                | c2 :: r4 =>
                  if c2 = ',' then
                    match parseMembers f (skipWs r4) with
                    | some (ms, rest) => some ((String.mk kcs, v) :: ms, rest)
                    | none => none
                  else if c2 = rbrace then some ([(String.mk kcs, v)], r4)
                  else none
                | [] => none
              | none => none
            else none
          | [] => none
        | none => none
      else none) := rfl

theorem parseValue_str (s : String) (rest : List Char) {N : Nat} (hN : 1 ≤ N) :
    parseValue N (dumpStr s ++ rest) = some (Json.str s, rest) := by
  obtain ⟨f, rfl⟩ : ∃ f, N = f + 1 := ⟨N - 1, by omega⟩
  rw [show dumpStr s ++ rest = '"' :: (escapeChars s.data ++ ('"' :: rest)) from by
    simp [dumpStr]]
  rw [parseValue_cons]
  simp [parseStringBody_escape s.data rest]

theorem numStopB_facts {c : Char} {t : List Char} (h : numStopB (c :: t) = true) :
    c.isDigit = false ∧ ¬(c = '.') ∧ ¬(c = 'e') ∧ ¬(c = 'E') := by
  simp only [numStopB, Bool.not_eq_true', Bool.or_eq_false_iff, beq_eq_false_iff_ne,
    ne_eq] at h
  exact ⟨h.1.1.1, h.1.1.2, h.1.2, h.2⟩

theorem numStopB_headNotDigitB {l : List Char} (h : numStopB l = true) :
    headNotDigitB l = true := by
  cases l with
  | nil => rfl
  | cons c t =>
    obtain ⟨h1, -, -, -⟩ := numStopB_facts h
    simp [headNotDigitB, h1]

theorem parseExpPart_stop (neg isF : Bool) (iv mant : Nat) (e : Int) {rest : List Char}
    (h : numStopB rest = true) :
    parseExpPart neg isF iv mant e rest = finishNumber neg isF iv mant e rest := by
  cases rest with
  | nil => rfl
  | cons c t =>
    obtain ⟨-, -, h3, h4⟩ := numStopB_facts h
    have hb : (c == 'e' || c == 'E') = false := by
      simp [beq_eq_false_iff_ne, h3, h4]
    simp only [parseExpPart, hb, Bool.false_eq_true, if_false]

theorem parseFracPart_stop (neg : Bool) (ip : Nat) {rest : List Char}
    (h : numStopB rest = true) :
    parseFracPart neg ip rest =
      some (Json.num (if neg then -(ip : Int) else (ip : Int)), rest) := by
  cases rest with
  | nil => rfl
  | cons c t =>
    obtain ⟨-, h2, -, -⟩ := numStopB_facts h
    simp only [parseFracPart, if_neg h2]
    rw [parseExpPart_stop neg false ip ip 0 h]
    rfl

theorem parseNumber_natToChars (neg : Bool) (n : Nat) {rest : List Char}
    (h : numStopB rest = true) :
    parseNumber neg (natToChars n ++ rest) =
      some (Json.num (if neg then -(n : Int) else (n : Int)), rest) := by
  by_cases hn0 : n = 0
  · subst hn0
    show parseNumber neg ('0' :: rest) = _
    cases rest with
    | nil => rfl
    | cons c t =>
      obtain ⟨h1, -, -, -⟩ := numStopB_facts h
      simp only [parseNumber, if_pos rfl]
      show (if c.isDigit = true then none else parseFracPart neg 0 (c :: t)) = _
      rw [if_neg (by simp [h1]), parseFracPart_stop neg 0 h]
  · obtain ⟨m, t, hm, hz, hnt⟩ := natToChars_head n
    have hm0 : m ≠ 0 := fun h0 => hn0 (hz h0)
    obtain ⟨hdig, -, -, -, -, h0iff, -⟩ := digitChar_facts hm
    have hne0 : ¬(Char.ofNat (48 + m) = '0') := fun hh => hm0 (h0iff.mp hh)
    rw [show natToChars n ++ rest = Char.ofNat (48 + m) :: (t ++ rest) from by
      rw [hnt, List.cons_append]]
    simp only [parseNumber]
    rw [if_neg hne0, if_pos hdig]
    rw [show Char.ofNat (48 + m) :: (t ++ rest) = natToChars n ++ rest from by
      rw [hnt, List.cons_append]]
    rw [natToChars_parse n (numStopB_headNotDigitB h)]
    show parseFracPart neg n rest = _
    rw [parseFracPart_stop neg n h]

theorem parseValue_int (i : Int) (rest : List Char) {N : Nat} (hN : 1 ≤ N)
    (h : numStopB rest = true) :
    parseValue N (intToChars i ++ rest) = some (Json.num i, rest) := by
  obtain ⟨f, rfl⟩ : ∃ f, N = f + 1 := ⟨N - 1, by omega⟩
  cases i with
  | ofNat n =>
    obtain ⟨m, t, hm, -, hnt⟩ := natToChars_head n
    obtain ⟨hdig, -, hq, hmi, -, -, -⟩ := digitChar_facts hm
    have hx : intToChars (Int.ofNat n) ++ rest = Char.ofNat (48 + m) :: (t ++ rest) := by
      show natToChars n ++ rest = _
      rw [hnt, List.cons_append]
    rw [hx, parseValue_cons, if_neg hq, if_neg hmi, if_pos hdig]
    rw [show Char.ofNat (48 + m) :: (t ++ rest) = natToChars n ++ rest from by
      rw [hnt, List.cons_append]]
    rw [parseNumber_natToChars false n h]
    rfl
  | negSucc n =>
    obtain ⟨m, t, hm, -, hnt⟩ := natToChars_head (n + 1)
    obtain ⟨hdig, -, -, -, -, -, hI⟩ := digitChar_facts hm
    have hx : intToChars (Int.negSucc n) ++ rest =
        '-' :: (Char.ofNat (48 + m) :: (t ++ rest)) := by
      show '-' :: (natToChars (n + 1) ++ rest) = _
      rw [hnt, List.cons_append]
    rw [hx, parseValue_cons]
    rw [if_neg (show ¬('-' = '"') from by decide), if_pos rfl]
    simp only [hI, hdig, if_false, if_true]
    rw [show Char.ofNat (48 + m) :: (t ++ rest) = natToChars (n + 1) ++ rest from by
      rw [hnt, List.cons_append]]
    rw [parseNumber_natToChars true (n + 1) h]
    show some (Json.num (-((n + 1 : Nat) : Int)), rest) = _
    rw [Int.negSucc_coe]

theorem dumpStr_append (s : String) (rest : List Char) :
    dumpStr s ++ rest = '"' :: (escapeChars s.data ++ ('"' :: rest)) := by
  simp [dumpStr]

theorem dumpStrElems_cons_head (s : String) (l : List String) (rest : List Char) :
    ∃ t, dumpStrElems (s :: l) ++ rest = '"' :: t := by
  cases l with
  | nil => exact ⟨escapeChars s.data ++ ('"' :: rest), dumpStr_append s rest⟩
  | cons s2 l2 =>
    refine ⟨escapeChars s.data ++ ('"' :: (',' :: dumpStrElems (s2 :: l2) ++ rest)), ?_⟩
    show (dumpStr s ++ ',' :: dumpStrElems (s2 :: l2)) ++ rest = _
    rw [List.append_assoc, dumpStr_append]

theorem parseElems_strings : ∀ (xs : List String), xs ≠ [] → ∀ (rest : List Char) {N : Nat},
    xs.length + 1 ≤ N →
    parseElems N (dumpStrElems xs ++ (']' :: rest)) = some (xs.map Json.str, rest)
  | [], h, _, _, _ => absurd rfl h
  | [s], _, rest, N, hN => by
    obtain ⟨f, rfl⟩ : ∃ f, N = (f + 1) + 1 := ⟨N - 2, by simp at hN; omega⟩
    show parseElems ((f + 1) + 1) (dumpStr s ++ (']' :: rest)) = _
    rw [parseElems_succ, parseValue_str s (']' :: rest) (by omega)]
    simp [skipWs_cons ']' rest (by decide)]
  | s :: s2 :: xs, _, rest, N, hN => by
    obtain ⟨f, hf, rfl⟩ : ∃ f, (s2 :: xs).length + 1 ≤ f ∧ N = f + 1 :=
      ⟨N - 1, by simp at hN ⊢; omega, by simp at hN; omega⟩
    show parseElems (f + 1) ((dumpStr s ++ (',' :: dumpStrElems (s2 :: xs))) ++ (']' :: rest)) = _
    rw [List.append_assoc, List.cons_append]
    rw [parseElems_succ, parseValue_str s _ (by omega)]
    obtain ⟨t, ht⟩ := dumpStrElems_cons_head s2 xs (']' :: rest)
    have h2 : skipWs (dumpStrElems (s2 :: xs) ++ (']' :: rest)) =
        dumpStrElems (s2 :: xs) ++ (']' :: rest) := by
      rw [ht]; exact skipWs_cons '"' t (by decide)
    simp only [skipWs_cons ',' (dumpStrElems (s2 :: xs) ++ (']' :: rest)) (by decide),
      if_pos rfl, h2]
    rw [parseElems_strings (s2 :: xs) (List.cons_ne_nil _ _) rest hf]
    simp

theorem parseValue_strArr (xs : List String) (rest : List Char) {N : Nat}
    (hN : xs.length + 2 ≤ N) :
    parseValue N (serializeStrArr xs ++ rest) = some (Json.arr (xs.map Json.str), rest) := by
  obtain ⟨f, hf, rfl⟩ : ∃ f, xs.length + 1 ≤ f ∧ N = f + 1 := ⟨N - 1, by omega, by omega⟩
  rw [show serializeStrArr xs ++ rest = '[' :: (dumpStrElems xs ++ (']' :: rest)) from by
    simp [serializeStrArr]]
  rw [parseValue_cons]
  rw [if_neg (by decide : ¬('[' = '"')), if_neg (by decide : ¬('[' = '-')),
    if_neg (by decide : ¬('['.isDigit = true)), if_pos rfl]
  cases xs with
  | nil =>
    show (match skipWs (']' :: rest) with
      | c1 :: r1 =>
        if c1 = ']' then some (Json.arr [], r1)
        else
          match parseElems f (c1 :: r1) with
          | some (vs, rest) => some (Json.arr vs, rest)
          | none => none
      | [] => none) = _
    rw [skipWs_cons ']' rest (by decide)]
    simp
  | cons s l =>
    obtain ⟨t, ht⟩ := dumpStrElems_cons_head s l (']' :: rest)
    rw [ht, skipWs_cons '"' t (by decide)]
    show (if ('"' : Char) = ']' then some (Json.arr [], t) else
      match parseElems f ('"' :: t) with
      | some (vs, rest) => some (Json.arr vs, rest)
      | none => none) = _
    rw [if_neg (by decide), ← ht]
    rw [parseElems_strings (s :: l) (List.cons_ne_nil _ _) rest hf]

theorem lbrace_facts :
    ¬(lbrace = '"') ∧ ¬(lbrace = '-') ∧ ¬(lbrace.isDigit = true) ∧ ¬(lbrace = '[') ∧
    isWsChar lbrace = false := by decide

theorem skipWs_append_of_head (l rest : List Char) (c : Char) (t : List Char)
    (h : l = c :: t) (hc : isWsChar c = false) : skipWs (l ++ rest) = l ++ rest := by
  subst h
  rw [List.cons_append]
  exact skipWs_cons c _ hc

theorem skipWs_dumpStr_append (s : String) (rest : List Char) :
    skipWs (dumpStr s ++ rest) = dumpStr s ++ rest :=
  skipWs_append_of_head _ rest '"' _ rfl (by decide)

theorem skipWs_serializeStrArr_append (xs : List String) (rest : List Char) :
    skipWs (serializeStrArr xs ++ rest) = serializeStrArr xs ++ rest :=
  skipWs_append_of_head _ rest '[' _ rfl (by decide)

theorem skipWs_serializeCritScore_append (c : CriterionScore) (rest : List Char) :
    skipWs (serializeCritScore c ++ rest) = serializeCritScore c ++ rest :=
  skipWs_append_of_head _ rest lbrace _ rfl (by decide)

theorem skipWs_intToChars_append (i : Int) (rest : List Char) :
    skipWs (intToChars i ++ rest) = intToChars i ++ rest := by
  cases i with
  | ofNat n =>
    obtain ⟨m, t, hm, -, hnt⟩ := natToChars_head n
    obtain ⟨-, hws, -, -, -, -, -⟩ := digitChar_facts hm
    show skipWs (natToChars n ++ rest) = natToChars n ++ rest
    exact skipWs_append_of_head _ rest _ _ hnt hws
  | negSucc n =>
    exact skipWs_append_of_head _ rest '-' _ rfl (by decide)

theorem parseValue_openObjQuote (f : Nat) (T : List Char) :
    parseValue (f + 1) (lbrace :: ('"' :: T)) =
      (match parseMembers f ('"' :: T) with
      | some (ms, rest) => some (Json.obj ms, rest)
      | none => none) := by
  rw [parseValue_cons, if_neg lbrace_facts.1, if_neg lbrace_facts.2.1,
    if_neg lbrace_facts.2.2.1, if_neg lbrace_facts.2.2.2.1, if_pos rfl]
  rfl

theorem parseValue_emptyObj (f : Nat) (rest : List Char) :
    parseValue (f + 1) (lbrace :: (rbrace :: rest)) = some (Json.obj [], rest) := by
  rw [parseValue_cons, if_neg lbrace_facts.1, if_neg lbrace_facts.2.1,
    if_neg lbrace_facts.2.2.1, if_neg lbrace_facts.2.2.2.1, if_pos rfl]
  rfl

theorem parseMembers_step (f : Nat) (k : String) (val X : List Char) (v : Json)
    (hv : parseValue f (skipWs (val ++ X)) = some (v, X)) :
    parseMembers (f + 1) (dumpStr k ++ (':' :: (val ++ X))) =
      (match skipWs X with
       | c2 :: r4 =>
         if c2 = ',' then
           match parseMembers f (skipWs r4) with
           | some (ms, rest) => some ((k, v) :: ms, rest)
           | none => none
         else if c2 = rbrace then some ([(k, v)], r4)
         else none
       | [] => none) := by
  rw [dumpStr_append, parseMembers_cons, if_pos rfl, parseStringBody_escape]
  show (if (':' : Char) = ':' then
      match parseValue f (skipWs (val ++ X)) with
      | some (v, r3) =>
        (match skipWs r3 with
          | c2 :: r4 =>
            if c2 = ',' then
              match parseMembers f (skipWs r4) with
              | some (ms, rest) => some ((String.mk k.data, v) :: ms, rest)
              | none => none
            else if c2 = rbrace then some ([(String.mk k.data, v)], r4)
            else none
          | [] => none)
      | none => none
    else none) = _
  rw [if_pos rfl, hv]

theorem parseMembers_step_more (f : Nat) (k : String) (val Y : List Char) (v : Json)
    (hv : parseValue f (skipWs (val ++ (',' :: Y))) = some (v, ',' :: Y)) :
    parseMembers (f + 1) (dumpStr k ++ (':' :: (val ++ (',' :: Y)))) =
      (match parseMembers f (skipWs Y) with
       | some (ms, rest) => some ((k, v) :: ms, rest)
       | none => none) := by
  rw [parseMembers_step f k val (',' :: Y) v hv]
  rfl

theorem parseMembers_step_last (f : Nat) (k : String) (val rest : List Char) (v : Json)
    (hv : parseValue f (skipWs (val ++ (rbrace :: rest))) = some (v, rbrace :: rest)) :
    parseMembers (f + 1) (dumpStr k ++ (':' :: (val ++ (rbrace :: rest)))) =
      some ([(k, v)], rest) := by
  rw [parseMembers_step f k val (rbrace :: rest) v hv]
  rfl

theorem parseValue_critScore (c : CriterionScore) (rest : List Char) {N : Nat}
    (hN : c.examples.length + 8 ≤ N) :
    parseValue N (serializeCritScore c ++ rest) = some (c.toJson, rest) := by
  obtain ⟨M, hM, rfl⟩ : ∃ M, c.examples.length + 2 ≤ M ∧ N = (((M + 1) + 1) + 1) + 1 :=
    ⟨N - 4, by omega, by omega⟩
  rw [show serializeCritScore c ++ rest =
      lbrace :: (dumpStr "score" ++ (':' :: (intToChars c.score ++ (',' ::
        (dumpStr "assessment" ++ (':' :: (dumpStr c.assessment ++ (',' ::
        (dumpStr "examples" ++ (':' :: (serializeStrArr c.examples ++
        (rbrace :: rest)))))))))))) from by
    simp [serializeCritScore, List.append_assoc]]
  rw [dumpStr_append "score"]
  rw [parseValue_openObjQuote]
  rw [← dumpStr_append "score"]
  rw [parseMembers_step_more ((M + 1) + 1) "score" (intToChars c.score) _ (Json.num c.score)
    (by rw [skipWs_intToChars_append]
        exact parseValue_int c.score _ (by omega) (by simp [numStopB]))]
  rw [skipWs_dumpStr_append "assessment"]
  rw [parseMembers_step_more (M + 1) "assessment" (dumpStr c.assessment) _
    (Json.str c.assessment)
    (by rw [skipWs_dumpStr_append]
        exact parseValue_str c.assessment _ (by omega))]
  rw [skipWs_dumpStr_append "examples"]
  rw [parseMembers_step_last M "examples" (serializeStrArr c.examples) rest
    (Json.arr (c.examples.map Json.str))
    (by rw [skipWs_serializeStrArr_append]
        exact parseValue_strArr c.examples _ (by omega))]
  rfl

theorem serializeCritMembers_cons_head (p : String × CriterionScore)
    (l : List (String × CriterionScore)) (rest : List Char) :
    ∃ t, serializeCritMembers (p :: l) ++ rest = '"' :: t := by
  rcases p with ⟨k, c⟩
  cases l with
  | nil =>
    refine ⟨escapeChars k.data ++ ('"' :: (':' :: (serializeCritScore c ++ rest))), ?_⟩
    show (dumpStr k ++ ':' :: serializeCritScore c) ++ rest = _
    rw [List.append_assoc, dumpStr_append]
    rfl
  | cons p2 tl =>
    refine ⟨escapeChars k.data ++ ('"' :: (':' :: (serializeCritScore c ++ (',' ::
      (serializeCritMembers (p2 :: tl) ++ rest))))), ?_⟩
    show (dumpStr k ++ ':' :: (serializeCritScore c ++ ',' :: serializeCritMembers (p2 :: tl)))
        ++ rest = _
    rw [List.append_assoc, dumpStr_append]
    simp [List.append_assoc]

theorem parseMembers_critMembers : ∀ (l : List (String × CriterionScore)), l ≠ [] →
    ∀ (rest : List Char) {N : Nat}, critFuel l ≤ N →
    parseMembers N (serializeCritMembers l ++ (rbrace :: rest)) =
      some (l.map (fun p => (p.1, p.2.toJson)), rest)
  | [], h, _, _, _ => absurd rfl h
  | [(k, c)], _, rest, N, hN => by
    obtain ⟨f, hf, rfl⟩ : ∃ f, c.examples.length + 8 ≤ f ∧ N = f + 1 :=
      ⟨N - 1, by simp [critFuel] at hN; omega, by simp [critFuel] at hN; omega⟩
    rw [show serializeCritMembers [(k, c)] ++ (rbrace :: rest) =
        dumpStr k ++ (':' :: (serializeCritScore c ++ (rbrace :: rest))) from by
      simp [serializeCritMembers, List.append_assoc]]
    rw [parseMembers_step_last f k (serializeCritScore c) rest c.toJson
      (by rw [skipWs_serializeCritScore_append]
          exact parseValue_critScore c _ hf)]
    rfl
  | (k, c) :: p2 :: tl, _, rest, N, hN => by
    obtain ⟨f, hf1, hf2, rfl⟩ : ∃ f, c.examples.length + 8 ≤ f ∧
        critFuel (p2 :: tl) ≤ f ∧ N = f + 1 :=
      ⟨N - 1, by simp [critFuel] at hN; omega, by simp [critFuel] at hN ⊢; omega,
        by simp [critFuel] at hN; omega⟩
    rw [show serializeCritMembers ((k, c) :: p2 :: tl) ++ (rbrace :: rest) =
        dumpStr k ++ (':' :: (serializeCritScore c ++ (',' ::
          (serializeCritMembers (p2 :: tl) ++ (rbrace :: rest))))) from by
      simp [serializeCritMembers, List.append_assoc]]
    rw [parseMembers_step_more f k (serializeCritScore c) _ c.toJson
      (by rw [skipWs_serializeCritScore_append]
          exact parseValue_critScore c _ hf1)]
    obtain ⟨t, ht⟩ := serializeCritMembers_cons_head p2 tl (rbrace :: rest)
    rw [show skipWs (serializeCritMembers (p2 :: tl) ++ (rbrace :: rest)) =
        serializeCritMembers (p2 :: tl) ++ (rbrace :: rest) from by
      rw [ht]; exact skipWs_cons '"' t (by decide)]
    rw [parseMembers_critMembers (p2 :: tl) (List.cons_ne_nil _ _) rest hf2]
    rfl

theorem serializeCritObj_head (l : List (String × CriterionScore)) :
    ∃ t, serializeCritObj l = lbrace :: t := by
  cases l with
  | nil => exact ⟨[rbrace], rfl⟩
  | cons p tl => exact ⟨serializeCritMembers (p :: tl) ++ [rbrace], rfl⟩

theorem parseValue_critObj (l : List (String × CriterionScore)) (rest : List Char) {N : Nat}
    (hN : critFuel l + 2 ≤ N) :
    parseValue N (serializeCritObj l ++ rest) =
      some (Json.obj (l.map (fun p => (p.1, p.2.toJson))), rest) := by
  obtain ⟨f, hf, rfl⟩ : ∃ f, critFuel l ≤ f ∧ N = f + 1 := ⟨N - 1, by omega, by omega⟩
  cases l with
  | nil =>
    show parseValue (f + 1) (lbrace :: (rbrace :: rest)) = _
    rw [parseValue_emptyObj]
    rfl
  | cons p tl =>
    rw [show serializeCritObj (p :: tl) ++ rest =
        lbrace :: (serializeCritMembers (p :: tl) ++ (rbrace :: rest)) from by
      simp [serializeCritObj, List.append_assoc]]
    obtain ⟨t, ht⟩ := serializeCritMembers_cons_head p tl (rbrace :: rest)
    rw [ht, parseValue_openObjQuote, ← ht]
    rw [parseMembers_critMembers (p :: tl) (List.cons_ne_nil _ _) rest hf]

theorem skipWs_serializeCritObj_append (l : List (String × CriterionScore))
    (rest : List Char) :
    skipWs (serializeCritObj l ++ rest) = serializeCritObj l ++ rest := by
  obtain ⟨t, ht⟩ := serializeCritObj_head l
  exact skipWs_append_of_head _ rest lbrace t ht (by decide)

theorem parseValue_report (r : AuditReport) (rest : List Char) {N : Nat}
    (hN : reportFuel r ≤ N) :
    parseValue N (serializeChars r ++ rest) = some (r.toJson, rest) := by
  obtain ⟨M, hM, rfl⟩ : ∃ M, critFuel r.criteria_scores + r.strengths.length +
      r.areas_for_improvement.length + 2 ≤ M ∧
      N = (((((M + 1) + 1) + 1) + 1) + 1) + 1 :=
    ⟨N - 6, by simp [reportFuel] at hN; omega, by simp [reportFuel] at hN; omega⟩
  have hshape : serializeChars r ++ rest =
      lbrace :: (dumpStr "overall_score" ++ (':' :: (intToChars r.overall_score ++ (','
        :: (dumpStr "criteria_scores" ++ (':' :: (serializeCritObj r.criteria_scores ++
        (',' :: (dumpStr "strengths" ++ (':' :: (serializeStrArr r.strengths ++ (',' ::
        (dumpStr "areas_for_improvement" ++ (':' :: (serializeStrArr
        r.areas_for_improvement ++ (',' :: (dumpStr "summary" ++ (':' :: (dumpStr
        r.summary ++ (rbrace :: rest)))))))))))))))))))) := by
    simp [serializeChars, List.append_assoc]
  rw [hshape]
  rw [dumpStr_append "overall_score"]
  rw [parseValue_openObjQuote]
  rw [← dumpStr_append "overall_score"]
  rw [parseMembers_step_more ((((M + 1) + 1) + 1) + 1) "overall_score"
    (intToChars r.overall_score) _ (Json.num r.overall_score)
    (by rw [skipWs_intToChars_append]
        exact parseValue_int r.overall_score _ (by omega) (by simp [numStopB]))]
  rw [skipWs_dumpStr_append "criteria_scores"]
  rw [parseMembers_step_more (((M + 1) + 1) + 1) "criteria_scores"
    (serializeCritObj r.criteria_scores) _
    (Json.obj (r.criteria_scores.map (fun p => (p.1, p.2.toJson))))
    (by rw [skipWs_serializeCritObj_append]
        exact parseValue_critObj r.criteria_scores _ (by omega))]
  rw [skipWs_dumpStr_append "strengths"]
  rw [parseMembers_step_more ((M + 1) + 1) "strengths" (serializeStrArr r.strengths) _
    (Json.arr (r.strengths.map Json.str))
    (by rw [skipWs_serializeStrArr_append]
        exact parseValue_strArr r.strengths _ (by omega))]
  rw [skipWs_dumpStr_append "areas_for_improvement"]
  rw [parseMembers_step_more (M + 1) "areas_for_improvement"
    (serializeStrArr r.areas_for_improvement) _
    (Json.arr (r.areas_for_improvement.map Json.str))
    (by rw [skipWs_serializeStrArr_append]
        exact parseValue_strArr r.areas_for_improvement _ (by omega))]
  rw [skipWs_dumpStr_append "summary"]
  rw [parseMembers_step_last M "summary" (dumpStr r.summary) rest (Json.str r.summary)
    (by rw [skipWs_dumpStr_append]
        exact parseValue_str r.summary _ (by omega))]
  rfl

theorem dumpStr_length (s : String) : 2 ≤ (dumpStr s).length := by
  simp [dumpStr]

theorem intToChars_length (i : Int) : 1 ≤ (intToChars i).length := by
  cases i with
  | ofNat n =>
    obtain ⟨m, t, -, -, hnt⟩ := natToChars_head n
    show 1 ≤ (natToChars n).length
    rw [hnt]
    simp
  | negSucc n =>
    show 1 ≤ ('-' :: natToChars (n + 1)).length
    simp

theorem dumpStrElems_length : ∀ (xs : List String), xs.length ≤ (dumpStrElems xs).length
  | [] => by simp [dumpStrElems]
  | [s] => by
    show 1 ≤ (dumpStr s).length
    have := dumpStr_length s
    omega
  | s :: s2 :: xs => by
    show (s :: s2 :: xs).length ≤ (dumpStr s ++ ',' :: dumpStrElems (s2 :: xs)).length
    have h1 := dumpStr_length s
    have h2 := dumpStrElems_length (s2 :: xs)
    simp only [List.length_append, List.length_cons] at *
    omega

theorem serializeStrArr_length (xs : List String) :
    xs.length + 2 ≤ (serializeStrArr xs).length := by
  have := dumpStrElems_length xs
  simp only [serializeStrArr, List.length_cons, List.length_append] at *
  omega

theorem serializeCritScore_length (c : CriterionScore) :
    c.examples.length + 9 ≤ (serializeCritScore c).length := by
  have h1 := dumpStr_length c.assessment
  have h2 := serializeStrArr_length c.examples
  have h3 := intToChars_length c.score
  simp only [serializeCritScore, List.length_cons, List.length_append] at *
  omega

theorem serializeCritMembers_length : ∀ (l : List (String × CriterionScore)),
    critFuel l ≤ (serializeCritMembers l).length
  | [] => by simp [critFuel, serializeCritMembers]
  | [(k, c)] => by
    have h1 := dumpStr_length k
    have h2 := serializeCritScore_length c
    show critFuel [(k, c)] ≤ (dumpStr k ++ ':' :: serializeCritScore c).length
    simp only [critFuel, List.length_append, List.length_cons] at *
    omega
  | (k, c) :: p2 :: tl => by
    have h1 := dumpStr_length k
    have h2 := serializeCritScore_length c
    have h3 := serializeCritMembers_length (p2 :: tl)
    show critFuel ((k, c) :: p2 :: tl) ≤
      (dumpStr k ++ ':' :: (serializeCritScore c ++ ',' :: serializeCritMembers (p2 :: tl))).length
    simp only [critFuel, List.length_append, List.length_cons] at *
    omega

theorem serializeCritObj_length (l : List (String × CriterionScore)) :
    critFuel l + 2 ≤ (serializeCritObj l).length := by
  cases l with
  | nil => simp [critFuel, serializeCritObj]
  | cons p tl =>
    have := serializeCritMembers_length (p :: tl)
    show critFuel (p :: tl) + 2 ≤ (lbrace :: (serializeCritMembers (p :: tl) ++ [rbrace])).length
    simp only [List.length_cons, List.length_append] at *
    omega

theorem serializeChars_length (r : AuditReport) :
    reportFuel r ≤ (serializeChars r).length := by
  have h1 := serializeCritObj_length r.criteria_scores
  have h2 := serializeStrArr_length r.strengths
  have h3 := serializeStrArr_length r.areas_for_improvement
  have h4 := dumpStr_length r.summary
  have h5 := intToChars_length r.overall_score
  have h6 := dumpStr_length "overall_score"
  simp only [reportFuel, serializeChars, List.length_cons, List.length_append] at *
  omega

theorem parseJson_serialize (r : AuditReport) :
    parseJson (serialize r) = some r.toJson := by
  show (match parseValue ((serializeChars r).length + 1) (skipWs (serializeChars r)) with
    | some (v, rest) => if skipWs rest = [] then some v else none
    | none => none) = some r.toJson
  obtain ⟨t, ht⟩ : ∃ t, serializeChars r = lbrace :: t := ⟨_, rfl⟩
  have hskip : skipWs (serializeChars r) = serializeChars r := by
    rw [ht]
    exact skipWs_cons lbrace t (by decide)
  rw [hskip]
  have hfuel : reportFuel r ≤ (serializeChars r).length + 1 := by
    have := serializeChars_length r
    omega
  rw [show serializeChars r = serializeChars r ++ ([] : List Char) from by simp] at hskip ⊢
  rw [parseValue_report r [] (by simpa using hfuel)]
  rfl

/-- C3: decode performs no schema validation: every syntactically valid
payload is returned exactly as parsed (missing fields, wrong types and
extra fields pass through unchanged), and decoding the serialization of any
well-formed synthetic report is the identity on the report. -/
theorem C3_decode_passthrough_roundtrip :
    (∀ raw v, parseJson raw = some v → decode raw = v) ∧
    (∀ r : AuditReport, decode (serialize r) = r.toJson) := by
  constructor
  · intro raw v h
    unfold decode
    rw [h]
  · intro r
    unfold decode
    rw [parseJson_serialize r]

/-- C3 witness: a payload that is valid JSON but has none of the report's
fields still passes through decode unchanged. -/
theorem C3_decode_passthrough_roundtrip_witness :
    decode "\x7b\"unexpected\": [1, true]\x7d" =
      Json.obj [("unexpected", Json.arr [Json.num 1, Json.bool true])] :=
  C3_decode_passthrough_roundtrip.1 "\x7b\"unexpected\": [1, true]\x7d"
    (Json.obj [("unexpected", Json.arr [Json.num 1, Json.bool true])]) rfl
